import Mathlib

/-!
Shallow embedding of the `slock` crate (src/src/lib.rs, src/src/blocking.rs).

A `Slock<T>` in the source is `Arc<RwLock<SlockData<T>>>`: a reference-counted
handle to a guarded cell.  We model the heap of cells explicitly: a `Store T`
is the list of all allocated `SlockData T` records, and a handle (`Slock`) is
the index of its cell in that list.  `split` clones the `Arc`, so the new
handle carries the same index.

Timeouts: `map` and `set` wrap each caller-supplied function (and the hook
invocation) in `timeout(1s, ...)`.  Whether a given invocation exceeds its
budget is decided by the runtime environment, so each embedded operation takes
one boolean per guarded invocation (`true` = the budget was exceeded) and
branches exactly as the source does on the `Result` of `timeout`.

Hooks: `SlockData.hook` in the source is `Option<Box<dyn FnMut(&T)>>`, an
arbitrary effectful closure.  Its observable interaction with the cell is
which closure is installed and when it is invoked with which argument, so we
model the slot as an optional hook identifier and have `set` emit a log of
`HookEvent`s, one per hook invocation, recording the identifier, the argument
passed (`&new`, the replacement value) and whether the invocation completed
within its budget (`timeout(...).await.ok()` in the source discards that
outcome either way).

Reads (`map`, `get`, `get_clone`) take a shared `RwLock` read guard and cannot
write through it, so they are embedded as pure functions of the store: leaving
the store unchanged is by construction.  Lock poisoning (a panic while the
lock is held) has no counterpart in the embedding; the `Err(_) => panic!`
arms of the source are unreachable here.  `Clone::clone` on the payload is
modelled as the identity, as it is for the value types used in the witnesses.
-/

/-- `TimeoutError` from `async_std::future`, re-exported by the crate. -/
inductive TimeoutError where
  | timedOut
deriving DecidableEq, Repr

/-- One invocation of a cell's registered hook during `set`: which installed
hook ran, the argument it received (a reference to the replacement value), and
whether it completed within its 1-second budget (`false` = the hook invocation
itself timed out; the source discards this outcome with `.ok()`). -/
structure HookEvent (T : Type) where
  hook : Nat
  arg : T
  completed : Bool
deriving DecidableEq, Repr

/-- Bit width of the `version` field in the source: `pub version: u32`. -/
def versionBits : Nat := 32

/-- `SlockData<T>`: the guarded payload of one cell.  `version` is a `u32`
counter kept below `2 ^ versionBits`; `hook` holds the identifier of the
installed observer closure, if any. -/
structure SlockData (T : Type) where
  version : Nat
  value : T
  hook : Option Nat
deriving DecidableEq, Repr

instance [Inhabited T] : Inhabited (SlockData T) :=
  ⟨{ version := 0, value := default, hook := none }⟩

/-- A handle (`Slock<T>` in the source): the index of the cell it references.
`split` clones the `Arc`, so handles created by `split` carry the same index. -/
structure Slock where
  id : Nat
deriving DecidableEq, Repr

instance : Inhabited Slock := ⟨⟨0⟩⟩

/-- The heap of allocated cells; a handle with index `i` references
`cells[i]`. -/
structure Store (T : Type) where
  cells : List (SlockData T)
deriving DecidableEq, Repr

/-- The cell a handle index references (out-of-range indices, which no handle
produced by `new`/`split` ever carries, read as a junk default). -/
def Store.data [Inhabited T] (σ : Store T) (i : Nat) : SlockData T :=
  σ.cells.getD i default

/-- `Slock::new` (lib.rs 81-90): allocate a fresh cell with `version = 0`,
`hook = None` and the given value; return its handle. -/
def Slock.new (v : T) (σ : Store T) : Slock × Store T :=
  (⟨σ.cells.length⟩, ⟨σ.cells ++ [{ version := 0, value := v, hook := none }]⟩)

/-- `Slock::map` (lib.rs 101-114): take a read guard and run `mapper` on
`&v.value` under the 1-second guard; `Ok` of its result, or `Err(TimeoutError)`
when the budget is exceeded.  The read guard cannot modify the cell. -/
def Slock.map [Inhabited T] (h : Slock) (mapper : T → U) (mapperTO : Bool)
    (σ : Store T) : Except TimeoutError U :=
  if mapperTO then .error .timedOut
  else .ok (mapper (σ.data h.id).value)

/-- `Slock::set` (lib.rs 125-150): take a write guard; run `setter` on the
value (moved out through a raw pointer) under the 1-second guard.  If it
completed, invoke the installed hook (if any) with `&new` under its own guard,
discarding that guard's outcome, and write `new` back; if it timed out, skip
both.  Either way `version += 1` (a `u32` add) before the guard is released.
Returns the updated store and the log of hook invocations. -/
def Slock.set [Inhabited T] (h : Slock) (setter : T → T) (setterTO hookTO : Bool)
    (σ : Store T) : Store T × List (HookEvent T) :=
  let d := σ.data h.id
  if setterTO then
    (⟨σ.cells.set h.id { d with version := (d.version + 1) % 2 ^ versionBits }⟩, [])
  else
    let n := setter d.value
    let evts : List (HookEvent T) :=
      match d.hook with
      | some hk => [⟨hk, n, !hookTO⟩]
      | none => []
    (⟨σ.cells.set h.id
        { version := (d.version + 1) % 2 ^ versionBits, value := n, hook := d.hook }⟩,
      evts)

/-- `Slock::split` (lib.rs 160-164): clone the `Arc`, producing a new handle
to the same cell; no cell data is read, copied or written. -/
def Slock.split (h : Slock) : Slock :=
  ⟨h.id⟩

/-- `Slock::hook` (lib.rs 173-183): take a write guard and install the given
closure in the hook slot, replacing any previous one.  Nothing else of the
cell is touched and no notification fires. -/
def Slock.hook [Inhabited T] (h : Slock) (hk : Nat) (σ : Store T) : Store T :=
  let d := σ.data h.id
  ⟨σ.cells.set h.id { d with hook := some hk }⟩

/-- `Slock::get_clone` (lib.rs 188-193): take a read guard and return
`v.value.clone()` directly — no timeout guard is involved. -/
def Slock.get_clone [Inhabited T] (h : Slock) (σ : Store T) : T :=
  (σ.data h.id).value

/-- `Slock::clone_async` (lib.rs 196-198): `Slock::new(self.get_clone().await)`
— a brand-new cell holding a clone of the current value. -/
def Slock.clone_async [Inhabited T] (h : Slock) (σ : Store T) : Slock × Store T :=
  Slock.new (Slock.get_clone h σ) σ

/-- `impl Clone for Slock` (blocking.rs 26-33):
`Slock::new(block_on(self.get_clone()))` — the blocking adapter drives the
same read to completion synchronously. -/
def Slock.clone [Inhabited T] (h : Slock) (σ : Store T) : Slock × Store T :=
  Slock.new (Slock.get_clone h σ) σ

/-- `Slock::get` (lib.rs 258-263, the `T: Copy` impl): take a read guard and
return `v.value` by bitwise copy — no timeout guard is involved. -/
def Slock.get [Inhabited T] (h : Slock) (σ : Store T) : T :=
  (σ.data h.id).value

/-- `Slock::<Slock<T>>::flatten` (lib.rs 215-217):
`self.map(|inner| inner.split()).await.unwrap()` — read the stored inner
handle and split it; `unwrap` panics (modelled as `none`) if the read's guard
elapsed. -/
def Slock.flatten (h : Slock) (mapperTO : Bool) (σ : Store Slock) : Option Slock :=
  (Slock.map h (fun inner => Slock.split inner) mapperTO σ).toOption

/-- Driver for a sequence of completed `set` calls on one handle: applies each
`(setter, setterTO, hookTO)` triple in order and concatenates the hook logs. -/
def Slock.runSets [Inhabited T] (h : Slock) (ops : List ((T → T) × Bool × Bool))
    (σ : Store T) : Store T × List (HookEvent T) :=
  match ops with
  | [] => (σ, [])
  | (f, sTO, hTO) :: rest =>
    let r := Slock.set h f sTO hTO σ
    let r2 := Slock.runSets h rest r.1
    (r2.1, r.2 ++ r2.2)

/-! ### The keyed-map specialization `SlockMap<K, V> = Slock<HashMap<K, Slock<V>>>`

The outer cell's value is a finite map from keys to handles of inner cells.
`HashMap` is embedded as an association list without duplicate keys;
`hmGet`/`hmInsert` mirror `HashMap::get`/`HashMap::insert`.  The inner cells
of type `V` live in their own `Store V`, so a `SlockMap` state is a pair of
stores (`MapState`): the outer store, whose cells hold association lists of
handles into the inner store, and the inner store itself. -/

/-- `HashMap::get` on the association-list embedding. -/
def hmGet [DecidableEq K] (m : List (K × Slock)) (k : K) : Option Slock :=
  match m with
  | [] => none
  | (k2, v) :: rest => if k = k2 then some v else hmGet rest k

/-- `HashMap::insert` on the association-list embedding: replaces the binding
of `k` if present, otherwise appends it. -/
def hmInsert [DecidableEq K] (m : List (K × Slock)) (k : K) (v : Slock) :
    List (K × Slock) :=
  match m with
  | [] => [(k, v)]
  | (k2, v2) :: rest =>
    if k = k2 then (k, v) :: rest else (k2, v2) :: hmInsert rest k v

/-- The two-level state of a `SlockMap<K, V>`: the outer store of map-valued
cells and the inner store of `V`-valued cells referenced by the maps. -/
structure MapState (K V : Type) where
  outer : Store (List (K × Slock))
  inner : Store V
deriving DecidableEq

/-- `SlockMap::from_key` (lib.rs 246-253):
`self.map(|hm| hm.get(&key).map(|inner| inner.split())).await.unwrap()`.
The `.unwrap()` panics when the read's guard elapsed; the panic is modelled as
the outer `none`. -/
def SlockMap.from_key [DecidableEq K] (h : Slock) (k : K) (readTO : Bool)
    (σ : Store (List (K × Slock))) : Option (Option Slock) :=
  (Slock.map h (fun hm => (hmGet hm k).map (fun inner => Slock.split inner))
    readTO σ).toOption

/-- `SlockMap::insert` (lib.rs 231-244): look the key up via `from_key`; if an
inner cell exists, delegate to its own `set` with `|v| setter(Some(v))`; else
run `set` on the outer map cell with a mutator that allocates
`Slock::new(setter(None))` and inserts its handle.  The allocation happens
inside the outer `set`'s guarded mutator, so when that mutator's budget
elapses (`setTO`) the allocation is discarded with it and the inner store is
unchanged.  `none` models the panic of `from_key`'s `unwrap` when the initial
read timed out.  Hook logs are not returned; the claims about `SlockMap` do
not concern hooks. -/
def SlockMap.insert [DecidableEq K] [Inhabited V] (h : Slock) (k : K)
    (setter : Option V → V) (readTO setTO hookTO : Bool) (st : MapState K V) :
    Option (MapState K V) :=
  match SlockMap.from_key h k readTO st.outer with
  | none => none
  | some (some innerH) =>
    some { st with
      inner := (Slock.set innerH (fun v => setter (some v)) setTO hookTO st.inner).1 }
  | some none =>
    let alloc := Slock.new (setter none) st.inner
    some ⟨(Slock.set h (fun hm => hmInsert hm k alloc.1) setTO hookTO st.outer).1,
      if setTO then st.inner else alloc.2⟩

/-! ### Helper lemmas -/

theorem Store.data_mk_set_self [Inhabited T] (l : List (SlockData T)) (i : Nat)
    (a : SlockData T) (hi : i < l.length) :
    (Store.mk (l.set i a)).data i = a := by
  simp [Store.data, List.getD_eq_getElem?_getD, List.getElem?_set_self, hi]

theorem Store.data_mk_set_ne [Inhabited T] (l : List (SlockData T)) (i j : Nat)
    (a : SlockData T) (hij : i ≠ j) :
    (Store.mk (l.set i a)).data j = (Store.mk l).data j := by
  simp [Store.data, List.getD_eq_getElem?_getD, List.getElem?_set_ne hij]

theorem Slock.set_cells_length [Inhabited T] (h : Slock) (f : T → T)
    (sTO hTO : Bool) (σ : Store T) :
    (Slock.set h f sTO hTO σ).1.cells.length = σ.cells.length := by
  unfold Slock.set
  by_cases hs : sTO <;> simp [hs]

/-- `set` bumps the version of the written cell by one modulo `2 ^ 32`,
in both the completed and the timed-out branch. -/
theorem Slock.set_version [Inhabited T] (h : Slock) (f : T → T)
    (sTO hTO : Bool) (σ : Store T) (hv : h.id < σ.cells.length) :
    ((Slock.set h f sTO hTO σ).1.data h.id).version =
      ((σ.data h.id).version + 1) % 2 ^ versionBits := by
  unfold Slock.set
  by_cases hs : sTO <;>
    simp [hs, Store.data_mk_set_self _ _ _ hv]

/-- `set` leaves the hook slot of the written cell unchanged. -/
theorem Slock.set_hook_slot [Inhabited T] (h : Slock) (f : T → T)
    (sTO hTO : Bool) (σ : Store T) (hv : h.id < σ.cells.length) :
    ((Slock.set h f sTO hTO σ).1.data h.id).hook = (σ.data h.id).hook := by
  unfold Slock.set
  by_cases hs : sTO <;>
    simp [hs, Store.data_mk_set_self _ _ _ hv]

/-- `set` through one handle leaves every other cell of the store untouched. -/
theorem Slock.set_data_ne [Inhabited T] (h : Slock) (f : T → T)
    (sTO hTO : Bool) (σ : Store T) (j : Nat) (hj : h.id ≠ j) :
    (Slock.set h f sTO hTO σ).1.data j = σ.data j := by
  unfold Slock.set
  by_cases hs : sTO <;>
    simp [hs, Store.data_mk_set_ne _ _ _ _ hj]

theorem Slock.runSets_cells_length [Inhabited T] (h : Slock)
    (ops : List ((T → T) × Bool × Bool)) (σ : Store T) :
    (Slock.runSets h ops σ).1.cells.length = σ.cells.length := by
  induction ops generalizing σ with
  | nil => rfl
  | cons op rest ih =>
    obtain ⟨f, sTO, hTO⟩ := op
    simp [Slock.runSets, ih, Slock.set_cells_length]

/-- Version of the cell after a sequence of completed `set` calls: the initial
version plus the number of calls, reduced modulo `2 ^ 32`. -/
theorem Slock.runSets_version [Inhabited T] (h : Slock)
    (ops : List ((T → T) × Bool × Bool)) (σ : Store T)
    (hv : h.id < σ.cells.length)
    (hlt : (σ.data h.id).version < 2 ^ versionBits) :
    ((Slock.runSets h ops σ).1.data h.id).version =
      ((σ.data h.id).version + ops.length) % 2 ^ versionBits := by
  induction ops generalizing σ with
  | nil =>
    simpa [Slock.runSets] using (Nat.mod_eq_of_lt hlt).symm
  | cons op rest ih =>
    obtain ⟨f, sTO, hTO⟩ := op
    have hv2 : h.id < (Slock.set h f sTO hTO σ).1.cells.length := by
      simpa [Slock.set_cells_length] using hv
    have hver := Slock.set_version h f sTO hTO σ hv
    have hlt2 : (((Slock.set h f sTO hTO σ).1).data h.id).version <
        2 ^ versionBits := by
      rw [hver]; exact Nat.mod_lt _ (by positivity)
    have := ih (Slock.set h f sTO hTO σ).1 hv2 hlt2
    simp only [Slock.runSets]
    rw [this, hver, Nat.mod_add_mod, List.length_cons]
    congr 1
    omega

/-- The hook slot survives a sequence of `set` calls. -/
theorem Slock.runSets_hook_slot [Inhabited T] (h : Slock)
    (ops : List ((T → T) × Bool × Bool)) (σ : Store T)
    (hv : h.id < σ.cells.length) :
    ((Slock.runSets h ops σ).1.data h.id).hook = (σ.data h.id).hook := by
  induction ops generalizing σ with
  | nil => rfl
  | cons op rest ih =>
    obtain ⟨f, sTO, hTO⟩ := op
    have hv2 : h.id < (Slock.set h f sTO hTO σ).1.cells.length := by
      simpa [Slock.set_cells_length] using hv
    simp only [Slock.runSets]
    rw [ih _ hv2, Slock.set_hook_slot _ _ _ _ _ hv]

/-- A `set` whose mutator timed out leaves the value unchanged. -/
theorem Slock.set_timeout_value [Inhabited T] (h : Slock) (f : T → T) (hTO : Bool)
    (σ : Store T) (hv : h.id < σ.cells.length) :
    ((Slock.set h f true hTO σ).1.data h.id).value = (σ.data h.id).value := by
  simp [Slock.set, Store.data_mk_set_self _ _ _ hv]

/-- A `set` whose mutator completed writes the replacement value back. -/
theorem Slock.set_ok_value [Inhabited T] (h : Slock) (f : T → T) (hTO : Bool)
    (σ : Store T) (hv : h.id < σ.cells.length) :
    ((Slock.set h f false hTO σ).1.data h.id).value = f (σ.data h.id).value := by
  simp [Slock.set, Store.data_mk_set_self _ _ _ hv]

/-- A `set` whose mutator timed out never invokes the hook. -/
theorem Slock.set_events_timeout [Inhabited T] (h : Slock) (f : T → T) (hTO : Bool)
    (σ : Store T) : (Slock.set h f true hTO σ).2 = [] := rfl

/-- A `set` whose mutator completed invokes the installed hook exactly once,
with the replacement value as its argument. -/
theorem Slock.set_events_ok [Inhabited T] (h : Slock) (f : T → T) (hTO : Bool)
    (σ : Store T) (hk : Nat) (hh : (σ.data h.id).hook = some hk) :
    (Slock.set h f false hTO σ).2 = [⟨hk, f (σ.data h.id).value, !hTO⟩] := by
  simp [Slock.set, hh]

/-- The store `set` produces does not depend on whether the hook invocation
completed within its budget (`timeout(...).await.ok()` discards the outcome). -/
theorem Slock.set_store_ignores_hookTO [Inhabited T] (h : Slock) (f : T → T)
    (sTO a b : Bool) (σ : Store T) :
    (Slock.set h f sTO a σ).1 = (Slock.set h f sTO b σ).1 := by
  by_cases hs : sTO = true <;> simp [Slock.set, hs]

/-- With a hook installed, a sequence of `set` calls logs exactly one hook
invocation per call whose mutator completed within its budget. -/
theorem Slock.runSets_event_count [Inhabited T] (h : Slock) (hk : Nat)
    (ops : List ((T → T) × Bool × Bool)) (σ : Store T)
    (hv : h.id < σ.cells.length) (hh : (σ.data h.id).hook = some hk) :
    (Slock.runSets h ops σ).2.length =
      (ops.filter (fun op => !op.2.1)).length := by
  induction ops generalizing σ with
  | nil => rfl
  | cons op rest ih =>
    obtain ⟨f, sTO, hTO⟩ := op
    have hv2 : h.id < (Slock.set h f sTO hTO σ).1.cells.length := by
      simpa [Slock.set_cells_length] using hv
    have hh2 : ((Slock.set h f sTO hTO σ).1.data h.id).hook = some hk := by
      rw [Slock.set_hook_slot _ _ _ _ _ hv]; exact hh
    have htail := ih (Slock.set h f sTO hTO σ).1 hv2 hh2
    simp only [Slock.runSets, List.length_append, htail]
    by_cases hs : sTO = true
    · subst hs
      simp [Slock.set]
    · simp only [Bool.not_eq_true] at hs
      subst hs
      simp [Slock.set, hh]
      omega

/-! ### Claim theorems -/

/-- Claim C1 (amended): every completed `set` call — mutator successful or
timed out — increments the cell's version by exactly 1 as a `u32`, so after K
completed calls the version equals (initial version + K) reduced modulo
`2 ^ 32`.  It equals initial version + K outright only while that sum stays
below `2 ^ 32`. -/
theorem version_counts_every_set [Inhabited T] (h : Slock)
    (ops : List ((T → T) × Bool × Bool)) (σ : Store T)
    (hv : h.id < σ.cells.length)
    (hlt : (σ.data h.id).version < 2 ^ versionBits) :
    (∀ (f : T → T) (sTO hTO : Bool),
      ((Slock.set h f sTO hTO σ).1.data h.id).version =
        ((σ.data h.id).version + 1) % 2 ^ versionBits) ∧
    ((Slock.runSets h ops σ).1.data h.id).version =
      ((σ.data h.id).version + ops.length) % 2 ^ versionBits :=
  ⟨fun f sTO hTO => Slock.set_version h f sTO hTO σ hv,
    Slock.runSets_version h ops σ hv hlt⟩

theorem version_counts_every_set_witness :
    ((Slock.runSets (⟨0⟩ : Slock)
        [((fun v => v + 1), false, false), ((fun v => v + 1), true, false)]
        (Slock.new (5 : Int) ⟨[]⟩).2).1.data 0).version = 2 := by
  have H := version_counts_every_set (⟨0⟩ : Slock)
    [((fun v => v + 1), false, false), ((fun v => v + 1), true, false)]
    (Slock.new (5 : Int) ⟨[]⟩).2 (by decide) (by decide)
  exact H.2.trans (by decide)

/-- Claim C1, counterexample: `version` is a `u32`, so a sequence of `2 ^ 32`
completed `set` calls starting from version 0 wraps the counter back to 0
instead of reaching initial version + K = `2 ^ 32`. -/
theorem version_wrap_counterexample :
    ¬ (((Slock.runSets (⟨0⟩ : Slock)
          (List.replicate (2 ^ 32) ((fun v : Int => v), false, false))
          (Slock.new (0 : Int) ⟨[]⟩).2).1.data 0).version = 0 + 2 ^ 32) := by
  have h0 : (((Slock.new (0 : Int) ⟨[]⟩).2).data 0).version = 0 := by decide
  have H := Slock.runSets_version (⟨0⟩ : Slock)
    (List.replicate (2 ^ 32) ((fun v : Int => v), false, false))
    (Slock.new (0 : Int) ⟨[]⟩).2 (by decide) (by decide)
  rw [H, h0, List.length_replicate]
  norm_num [versionBits]

/-- Claim C2: a cell created with 5, mutated with +1, reads 6; after `split`
produces a second handle to the same cell, setting the value to 0 through the
second handle makes a read through the original handle return 0.  `split`
merely clones the reference (`split h = h` on cell indices): no data is
copied, and both handles address the same cell state. -/
theorem split_aliasing_scenario :
    (∀ h : Slock, Slock.split h = h) ∧
    Slock.get ⟨0⟩ (Slock.set ⟨0⟩ (fun v => v + 1) false false
      (Slock.new (5 : Int) ⟨[]⟩).2).1 = 6 ∧
    Slock.get ⟨0⟩ (Slock.set (Slock.split ⟨0⟩) (fun _ => 0) false false
      (Slock.set ⟨0⟩ (fun v => v + 1) false false
        (Slock.new (5 : Int) ⟨[]⟩).2).1).1 = 0 :=
  ⟨fun _ => rfl, by decide, by decide⟩

/-- Claim C3, counterexample: a `set` whose mutator exceeded its budget
returns to its caller exactly what a successful no-op `set` returns — `set` in
the source returns `()` and surfaces no TimedOut failure, so the two calls are
indistinguishable to the immediate caller. -/
theorem set_timeout_not_surfaced_counterexample :
    Slock.set ⟨0⟩ (fun v => v + 1) true false (Slock.new (10 : Int) ⟨[]⟩).2 =
    Slock.set ⟨0⟩ (fun v => v) false false (Slock.new (10 : Int) ⟨[]⟩).2 := by
  decide

/-- Claim C3 (amended): when the caller-supplied function exceeds its budget,
`map` returns a TimedOut failure to its immediate caller; `set` discards the
partial mutation — the value is unchanged and the hook is never invoked, the
sequence aborting at the Compute step — but returns no failure to its caller
(`set` returns unit in the source), and the version is still incremented. -/
theorem timeout_aborts_compute [Inhabited T] (h : Slock) (σ : Store T)
    (hv : h.id < σ.cells.length) :
    (∀ (U : Type) (f : T → U), Slock.map h f true σ = .error .timedOut) ∧
    (∀ (f : T → T) (hTO : Bool),
      ((Slock.set h f true hTO σ).1.data h.id).value = (σ.data h.id).value ∧
      (Slock.set h f true hTO σ).2 = [] ∧
      ((Slock.set h f true hTO σ).1.data h.id).version =
        ((σ.data h.id).version + 1) % 2 ^ versionBits) :=
  ⟨fun _ _ => rfl,
    fun f hTO =>
      ⟨Slock.set_timeout_value h f hTO σ hv,
        Slock.set_events_timeout h f hTO σ,
        Slock.set_version h f true hTO σ hv⟩⟩

theorem timeout_aborts_compute_witness :
    Slock.map (⟨0⟩ : Slock) (fun v : Int => v * 2) true
      (Slock.new (10 : Int) ⟨[]⟩).2 = .error .timedOut ∧
    ((Slock.set (⟨0⟩ : Slock) (fun v : Int => v + 1) true false
      (Slock.new (10 : Int) ⟨[]⟩).2).1.data 0).value = 10 := by
  have H := timeout_aborts_compute (⟨0⟩ : Slock) (Slock.new (10 : Int) ⟨[]⟩).2
    (by decide)
  exact ⟨H.1 Int (fun v => v * 2), ((H.2 (fun v => v + 1) false).1).trans (by decide)⟩

/-- Claim C4: `hook` installs the callback — replacing any previous one —
without touching value or version (and fires no notification: the embedded
`hook` emits no events by construction, mirroring the source, which only
assigns the slot).  A `set` whose mutator completed invokes the installed hook
exactly once, with the replacement (post-mutation) value as argument; a `set`
whose mutator timed out invokes it zero times; over any sequence of `set`
calls the hook is invoked exactly once per call whose mutator completed. -/
theorem hook_invocation_discipline [Inhabited T] (h : Slock) (hk : Nat)
    (σ : Store T) (hv : h.id < σ.cells.length) :
    (((Slock.hook h hk σ).data h.id).hook = some hk ∧
      ((Slock.hook h hk σ).data h.id).value = (σ.data h.id).value ∧
      ((Slock.hook h hk σ).data h.id).version = (σ.data h.id).version) ∧
    (∀ (f : T → T) (hTO : Bool), (σ.data h.id).hook = some hk →
      (Slock.set h f false hTO σ).2 = [⟨hk, f (σ.data h.id).value, !hTO⟩] ∧
      ((Slock.set h f false hTO σ).1.data h.id).value = f (σ.data h.id).value) ∧
    (∀ (f : T → T) (hTO : Bool), (Slock.set h f true hTO σ).2 = []) ∧
    (∀ ops : List ((T → T) × Bool × Bool), (σ.data h.id).hook = some hk →
      (Slock.runSets h ops σ).2.length =
        (ops.filter (fun op => !op.2.1)).length) := by
  refine ⟨⟨?_, ?_, ?_⟩, ?_, ?_, ?_⟩
  · simp [Slock.hook, Store.data_mk_set_self _ _ _ hv]
  · simp [Slock.hook, Store.data_mk_set_self _ _ _ hv]
  · simp [Slock.hook, Store.data_mk_set_self _ _ _ hv]
  · exact fun f hTO hh =>
      ⟨Slock.set_events_ok h f hTO σ hk hh, Slock.set_ok_value h f hTO σ hv⟩
  · exact fun f hTO => Slock.set_events_timeout h f hTO σ
  · exact fun ops hh => Slock.runSets_event_count h hk ops σ hv hh

theorem hook_invocation_discipline_witness :
    ((Slock.hook (⟨0⟩ : Slock) 9
      (Slock.hook ⟨0⟩ 7 (Slock.new (5 : Int) ⟨[]⟩).2)).data 0).hook = some 9 ∧
    (Slock.set (⟨0⟩ : Slock) (fun v : Int => v + 1) false false
      (Slock.hook ⟨0⟩ 7 (Slock.new (5 : Int) ⟨[]⟩).2)).2 = [⟨7, 6, true⟩] ∧
    (Slock.runSets (⟨0⟩ : Slock)
      [((fun v : Int => v + 1), false, false), ((fun v => v), true, false)]
      (Slock.hook ⟨0⟩ 7 (Slock.new (5 : Int) ⟨[]⟩).2)).2.length = 1 := by
  have H9 := hook_invocation_discipline (⟨0⟩ : Slock) 9
    (Slock.hook ⟨0⟩ 7 (Slock.new (5 : Int) ⟨[]⟩).2) (by decide)
  have H7 := hook_invocation_discipline (⟨0⟩ : Slock) 7
    (Slock.hook ⟨0⟩ 7 (Slock.new (5 : Int) ⟨[]⟩).2) (by decide)
  refine ⟨H9.1.1, ?_, ?_⟩
  · exact ((H7.2.1 (fun v => v + 1) false (by decide)).1).trans (by decide)
  · exact (H7.2.2.2 _ (by decide)).trans (by decide)

/-- Claim C5: once the mutator has produced a replacement, a failing or
timed-out hook invocation is swallowed: the store `set` produces is identical
to the one produced when the hook completes, the replacement value is still
written back, the version still incremented, and nothing escalates to the
caller (the source discards the hook guard's outcome with `.ok()`; `set`
returns no failure).  The log still records the (uncompleted) invocation. -/
theorem hook_timeout_swallowed [Inhabited T] (h : Slock) (f : T → T)
    (σ : Store T) (hk : Nat) (hv : h.id < σ.cells.length)
    (hh : (σ.data h.id).hook = some hk) :
    (Slock.set h f false true σ).1 = (Slock.set h f false false σ).1 ∧
    ((Slock.set h f false true σ).1.data h.id).value = f (σ.data h.id).value ∧
    ((Slock.set h f false true σ).1.data h.id).version =
      ((σ.data h.id).version + 1) % 2 ^ versionBits ∧
    (Slock.set h f false true σ).2 = [⟨hk, f (σ.data h.id).value, false⟩] :=
  ⟨Slock.set_store_ignores_hookTO h f false true false σ,
    Slock.set_ok_value h f true σ hv,
    Slock.set_version h f false true σ hv,
    Slock.set_events_ok h f true σ hk hh⟩

theorem hook_timeout_swallowed_witness :
    ((Slock.set (⟨0⟩ : Slock) (fun v : Int => v + 1) false true
      (Slock.hook ⟨0⟩ 7 (Slock.new (5 : Int) ⟨[]⟩).2)).1.data 0).value = 6 ∧
    (Slock.set (⟨0⟩ : Slock) (fun v : Int => v + 1) false true
      (Slock.hook ⟨0⟩ 7 (Slock.new (5 : Int) ⟨[]⟩).2)).2 = [⟨7, 6, false⟩] := by
  have H := hook_timeout_swallowed (⟨0⟩ : Slock) (fun v : Int => v + 1)
    (Slock.hook ⟨0⟩ 7 (Slock.new (5 : Int) ⟨[]⟩).2) 7 (by decide) (by decide)
  exact ⟨H.2.1.trans (by decide), H.2.2.2.trans (by decide)⟩

theorem Store.data_mk_append_left [Inhabited T] (l l2 : List (SlockData T))
    (i : Nat) (hi : i < l.length) :
    (Store.mk (l ++ l2)).data i = (Store.mk l).data i := by
  simp [Store.data, List.getD_eq_getElem?_getD, List.getElem?_append, hi]

theorem Store.data_mk_concat_self [Inhabited T] (l : List (SlockData T))
    (a : SlockData T) : (Store.mk (l ++ [a])).data l.length = a := by
  simp [Store.data, List.getD_eq_getElem?_getD, List.getElem?_concat_length]

/-- Claim C6, counterexample: the `version` field is declared `u32` in the
source, a 32-bit — not 64-bit — unsigned counter; accordingly `2 ^ 32`
completed `set` calls wrap a fresh cell's version back to 0. -/
theorem version_not_64_bit_counterexample :
    versionBits ≠ 64 ∧
    ((Slock.runSets (⟨0⟩ : Slock)
        (List.replicate (2 ^ 32) ((fun v : Int => v), false, false))
        (Slock.new (3 : Int) ⟨[]⟩).2).1.data 0).version = 0 := by
  refine ⟨by decide, ?_⟩
  have h0 : (((Slock.new (3 : Int) ⟨[]⟩).2).data 0).version = 0 := by decide
  have H := Slock.runSets_version (⟨0⟩ : Slock)
    (List.replicate (2 ^ 32) ((fun v : Int => v), false, false))
    (Slock.new (3 : Int) ⟨[]⟩).2 (by decide) (by decide)
  rw [H, h0, List.length_replicate]
  norm_num [versionBits]

/-- Claim C6 (amended): the `version` field is an unsigned 32-bit (`u32`)
counter, and every cell returned by `new(initial)` starts at version exactly
0, with no hook installed and the stored value equal to `initial`. -/
theorem new_initial_state [Inhabited T] (v : T) (σ : Store T) :
    versionBits = 32 ∧
    ((Slock.new v σ).2.data (Slock.new v σ).1.id).version = 0 ∧
    ((Slock.new v σ).2.data (Slock.new v σ).1.id).hook = none ∧
    ((Slock.new v σ).2.data (Slock.new v σ).1.id).value = v := by
  refine ⟨rfl, ?_, ?_, ?_⟩ <;>
    simp [Slock.new, Store.data_mk_concat_self]

/-- Claim C7, counterexample: `get` reads the lock directly rather than
calling `map`, so it does not share `map`'s failure behaviour: when the
bounded guard of the corresponding `map` call elapses, `map` returns a
TimedOut failure while `get` still returns the value. -/
theorem get_not_via_map_counterexample :
    ¬ (Except.ok (Slock.get ⟨0⟩ (Slock.new (5 : Int) ⟨[]⟩).2) =
        Slock.map ⟨0⟩ (fun v => v) true (Slock.new (5 : Int) ⟨[]⟩).2) := by
  simp [Slock.map]

/-- Claim C7 (amended): `get` returns a bitwise copy and `get_clone` a
duplicate of the current value, each agreeing with the successful case of a
`map` call that copies (respectively clones) the value; but neither is
implemented via `map` in the source: both read the lock directly with no
bounded-time guard, and so never exhibit `map`'s TimedOut failure. -/
theorem get_matches_successful_map [Inhabited T] (h : Slock) (σ : Store T) :
    Except.ok (Slock.get h σ) = Slock.map h (fun v => v) false σ ∧
    Except.ok (Slock.get_clone h σ) = Slock.map h (fun v => v) false σ ∧
    Slock.get h σ = (σ.data h.id).value ∧
    Slock.get_clone h σ = (σ.data h.id).value :=
  ⟨rfl, rfl, rfl, rfl⟩

/-- Claim C8: `clone_async` — and the blocking `Clone` adapter, which performs
the same construction — builds a brand-new cell wrapping a copy of the current
value: the duplicate's handle references a fresh cell (not the original's),
the original cell is untouched by the duplication, and any subsequent `set`
through the duplicate handle leaves the original cell's value and version
unchanged. -/
theorem duplicate_independent [Inhabited T] (h : Slock) (σ : Store T)
    (hv : h.id < σ.cells.length) :
    Slock.clone h σ = Slock.clone_async h σ ∧
    (Slock.clone_async h σ).1.id ≠ h.id ∧
    ((Slock.clone_async h σ).2.data (Slock.clone_async h σ).1.id).value =
      (σ.data h.id).value ∧
    ((Slock.clone_async h σ).2.data (Slock.clone_async h σ).1.id).version = 0 ∧
    (Slock.clone_async h σ).2.data h.id = σ.data h.id ∧
    (∀ (f : T → T) (sTO hTO : Bool),
      (Slock.set (Slock.clone_async h σ).1 f sTO hTO
        (Slock.clone_async h σ).2).1.data h.id = σ.data h.id) := by
  refine ⟨rfl, Nat.ne_of_gt hv, ?_, ?_, ?_, ?_⟩
  · simp [Slock.clone_async, Slock.new, Slock.get_clone,
      Store.data_mk_concat_self]
  · simp [Slock.clone_async, Slock.new, Slock.get_clone,
      Store.data_mk_concat_self]
  · simp [Slock.clone_async, Slock.new, Store.data_mk_append_left _ _ _ hv]
  · intro f sTO hTO
    have hne : (Slock.clone_async h σ).1.id ≠ h.id := Nat.ne_of_gt hv
    rw [Slock.set_data_ne _ _ _ _ _ _ hne]
    simp [Slock.clone_async, Slock.new, Store.data_mk_append_left _ _ _ hv]

theorem duplicate_independent_witness :
    ((Slock.set (⟨1⟩ : Slock) (fun v : Int => v + 10) false false
      (Slock.clone_async ⟨0⟩ (Slock.new (5 : Int) ⟨[]⟩).2).2).1.data 0).value
      = 5 := by
  have H := duplicate_independent (⟨0⟩ : Slock) (Slock.new (5 : Int) ⟨[]⟩).2
    (by decide)
  have h1 : (Slock.clone_async (⟨0⟩ : Slock) (Slock.new (5 : Int) ⟨[]⟩).2).1 =
      ⟨1⟩ := by decide
  have H6 := H.2.2.2.2.2 (fun v => v + 10) false false
  rw [h1] at H6
  exact (congrArg SlockData.value H6).trans (by decide)

theorem Slock.split_eq (h : Slock) : Slock.split h = h := rfl

theorem hmGet_hmInsert_self [DecidableEq K] (m : List (K × Slock)) (k : K)
    (v : Slock) : hmGet (hmInsert m k v) k = some v := by
  induction m with
  | nil => simp [hmInsert, hmGet]
  | cons p rest ih =>
    obtain ⟨k2, v2⟩ := p
    by_cases hk : k = k2 <;> simp [hmInsert, hmGet, hk, ih]

/-- Claim C9: on a keyed-map cell, `from_key` on an absent key returns a
no-value result (the lookup is a pure `map` read: no store is modified by
construction); `insert` on an absent key performs a write on the outer map
cell that adds exactly one new inner cell holding `setter(None)`, visible to
subsequent `from_key` lookups; `insert` on a present key instead delegates to
the existing inner cell's own `set` and leaves the outer store entirely
unchanged. -/
theorem upsert_lookup_behaviour [DecidableEq K] [Inhabited V] (h : Slock)
    (k : K) (f : Option V → V) (st : MapState K V)
    (hv : h.id < st.outer.cells.length) :
    (hmGet (st.outer.data h.id).value k = none →
      SlockMap.from_key h k false st.outer = some none ∧
      (∀ st2, SlockMap.insert h k f false false false st = some st2 →
        SlockMap.from_key h k false st2.outer =
          some (some ⟨st.inner.cells.length⟩) ∧
        st2.inner.cells.length = st.inner.cells.length + 1 ∧
        (st2.inner.data st.inner.cells.length).value = f none ∧
        (st2.outer.data h.id).version =
          ((st.outer.data h.id).version + 1) % 2 ^ versionBits)) ∧
    (∀ hIn, hmGet (st.outer.data h.id).value k = some hIn →
      ∀ (sTO hTO : Bool),
        SlockMap.insert h k f false sTO hTO st =
          some ⟨st.outer,
            (Slock.set hIn (fun v => f (some v)) sTO hTO st.inner).1⟩) := by
  constructor
  · intro habs
    have hfk : SlockMap.from_key h k false st.outer = some none := by
      simp [SlockMap.from_key, Slock.map, Except.toOption, habs]
    refine ⟨hfk, ?_⟩
    intro st2 hins
    have hins2 : SlockMap.insert h k f false false false st =
        some ⟨(Slock.set h (fun hm => hmInsert hm k ⟨st.inner.cells.length⟩)
            false false st.outer).1,
          (Slock.new (f none) st.inner).2⟩ := by
      simp [SlockMap.insert, hfk, Slock.new]
    rw [hins2] at hins
    have hst2 : st2 = ⟨(Slock.set h
        (fun hm => hmInsert hm k ⟨st.inner.cells.length⟩) false false
          st.outer).1, (Slock.new (f none) st.inner).2⟩ :=
      (Option.some.inj hins).symm
    subst hst2
    refine ⟨?_, ?_, ?_, ?_⟩
    · have hval := Slock.set_ok_value h
        (fun hm => hmInsert hm k ⟨st.inner.cells.length⟩) false st.outer hv
      simp [SlockMap.from_key, Slock.map, Except.toOption, hval,
        hmGet_hmInsert_self, Slock.split_eq]
    · simp [Slock.new]
    · simp [Slock.new, Store.data_mk_concat_self]
    · exact Slock.set_version h
        (fun hm => hmInsert hm k ⟨st.inner.cells.length⟩) false false
        st.outer hv
  · intro hIn hpres sTO hTO
    have hfk : SlockMap.from_key h k false st.outer = some (some hIn) := by
      simp [SlockMap.from_key, Slock.map, Except.toOption, hpres,
        Slock.split_eq]
    simp [SlockMap.insert, hfk]

theorem upsert_lookup_behaviour_witness :
    SlockMap.from_key (⟨0⟩ : Slock) (3 : Nat) false
      (Slock.new ([] : List (Nat × Slock)) ⟨[]⟩).2 = some none ∧
    SlockMap.from_key (⟨0⟩ : Slock) (3 : Nat) false
      (⟨[⟨1, [(3, ⟨0⟩)], none⟩]⟩ : Store (List (Nat × Slock))) =
        some (some ⟨0⟩) ∧
    SlockMap.insert (⟨0⟩ : Slock) (3 : Nat)
      (fun o : Option Int => o.getD 40 + 2) false false false
      ⟨⟨[⟨1, [(3, ⟨0⟩)], none⟩]⟩, ⟨[⟨0, 42, none⟩]⟩⟩ =
      some ⟨⟨[⟨1, [(3, ⟨0⟩)], none⟩]⟩, ⟨[⟨1, 44, none⟩]⟩⟩ := by
  have Habs := upsert_lookup_behaviour (⟨0⟩ : Slock) (3 : Nat)
    (fun o : Option Int => o.getD 40 + 2)
    ⟨(Slock.new ([] : List (Nat × Slock)) ⟨[]⟩).2, ⟨[]⟩⟩ (by decide)
  have Hins := (Habs.1 (by decide)).2
    ⟨⟨[⟨1, [(3, ⟨0⟩)], none⟩]⟩, ⟨[⟨0, 42, none⟩]⟩⟩ (by decide)
  have Hpres := upsert_lookup_behaviour (⟨0⟩ : Slock) (3 : Nat)
    (fun o : Option Int => o.getD 40 + 2)
    ⟨⟨[⟨1, [(3, ⟨0⟩)], none⟩]⟩, ⟨[⟨0, 42, none⟩]⟩⟩ (by decide)
  refine ⟨(Habs.1 (by decide)).1, Hins.1.trans (by decide), ?_⟩
  exact (Hpres.2 ⟨0⟩ (by decide) false false).trans (by decide)

/-- Claim C10: on a cell whose value is itself a cell handle, `flatten` (its
read completing within budget) returns exactly the stored inner handle —
`split` is the identity on cell indices — so a mutation through the returned
handle is literally a mutation through the stored inner handle (and vice
versa: the two handles are equal, so visibility runs both ways).  `flatten`
is a `map` read of the outer cell: it produces no modified store, so the
outer cell's value, version and hook are untouched by construction. -/
theorem flatten_aliases_inner [Inhabited V] (σ : Store Slock) (h : Slock) :
    Slock.flatten h false σ = some ((σ.data h.id).value) ∧
    (∀ (ι : Store V) (f : V → V) (sTO hTO : Bool) (h2 : Slock),
      Slock.flatten h false σ = some h2 →
      Slock.set h2 f sTO hTO ι =
        Slock.set ((σ.data h.id).value) f sTO hTO ι) := by
  constructor
  · simp [Slock.flatten, Slock.map, Except.toOption, Slock.split_eq]
  · intro ι f sTO hTO h2 hflat
    have h22 : h2 = (σ.data h.id).value := by
      simp [Slock.flatten, Slock.map, Except.toOption, Slock.split_eq] at hflat
      exact hflat.symm
    rw [h22]

theorem flatten_aliases_inner_witness :
    Slock.flatten ⟨0⟩ false (⟨[⟨0, ⟨0⟩, none⟩]⟩ : Store Slock) = some ⟨0⟩ ∧
    Slock.set (⟨0⟩ : Slock) (fun _ : Int => 42) false false ⟨[⟨0, 7, none⟩]⟩ =
      Slock.set ((⟨[⟨0, ⟨0⟩, none⟩]⟩ : Store Slock).data 0).value
        (fun _ : Int => 42) false false ⟨[⟨0, 7, none⟩]⟩ := by
  have H := flatten_aliases_inner (V := Int)
    (⟨[⟨0, ⟨0⟩, none⟩]⟩ : Store Slock) ⟨0⟩
  exact ⟨H.1.trans (by decide),
    H.2 ⟨[⟨0, 7, none⟩]⟩ (fun _ => 42) false false ⟨0⟩ (H.1.trans (by decide))⟩
